import Mathlib

/-!
# The pyston AST header (`src/core/ast.h`)

An embedding of the node hierarchy, the three visitor interfaces, the no-op and
print visitors, and the `findNodes` template of `src/core/ast.h`, followed by
theorems about them.

* The enumeration `AST_TYPE` is an inductive type with its integer values (`val`)
  and its enumerator spellings (`name`).
* Every concrete node class is a constructor of `NodeClass`; `NodeClass.decl`
  transcribes its class declaration: spelling, base-specifier list, what the
  nullary constructor builds, which `accept*` members it declares, and the
  value of its `TYPE` constant when it has one.
* Every visitor class is the list of its `virtual` handler declarations, each
  with its inline body as a Lean function (or `none` when the header only
  declares it).
* `findNodes` is the template of the header; `flatten`, which the header only
  declares, is a parameter of it.
* `Node`, `flatten` and `isScope` model the tree and the flattening of the
  specification (§3, §4.3): the header declares `flatten` and does not define it.
* `accept` models the handler call of the `accept` member functions from the
  specification (§4.2): the header declares them and does not define them.
-/

namespace Pyston

/-! ## The enumeration `AST_TYPE` -/

/-- Enumerators of `AST_TYPE::AST_TYPE`, in the order of the header. -/
inductive AST_TYPE where
  | alias | arguments | Assert | Assign | Attribute | AugAssign | BinOp | BoolOp
  | Call | ClassDef | Compare | comprehension | Delete | Dict | Exec
  | ExceptHandler | ExtSlice | Expr | For | FunctionDef | GeneratorExp | Global
  | If | IfExp | Import | ImportFrom | Index | keyword | Lambda | List | ListComp
  | Module | Num | Name | Pass | Pow | Print | Raise | Repr | Return | Slice | Str
  | Subscript | TryExcept | TryFinally | Tuple | UnaryOp | With | While | Yield
  | Store | Load | Param | Not | In | Is | IsNot | Or | And | Eq | NotEq | NotIn
  | GtE | Gt | Mod | Add | Continue | Lt | LtE | Break | Sub | Del | Mult | Div
  | USub | BitAnd | BitOr | BitXor | RShift | LShift | Invert | UAdd | FloorDiv
  | DictComp | Set
  | Branch | Jump | ClsAttribute | AugBinOp
  deriving DecidableEq

/-- Integer value of each enumerator, as written in the header. -/
def AST_TYPE.val : AST_TYPE → Int
  | .alias => 1
  | .arguments => 2
  | .Assert => 3
  | .Assign => 4
  | .Attribute => 5
  | .AugAssign => 6
  | .BinOp => 7
  | .BoolOp => 8
  | .Call => 9
  | .ClassDef => 10
  | .Compare => 11
  | .comprehension => 12
  | .Delete => 13
  | .Dict => 14
  | .Exec => 16
  | .ExceptHandler => 17
  | .ExtSlice => 18
  | .Expr => 19
  | .For => 20
  | .FunctionDef => 21
  | .GeneratorExp => 22
  | .Global => 23
  | .If => 24
  | .IfExp => 25
  | .Import => 26
  | .ImportFrom => 27
  | .Index => 28
  | .keyword => 29
  | .Lambda => 30
  | .List => 31
  | .ListComp => 32
  | .Module => 33
  | .Num => 34
  | .Name => 35
  | .Pass => 37
  | .Pow => 38
  | .Print => 39
  | .Raise => 40
  | .Repr => 41
  | .Return => 42
  | .Slice => 44
  | .Str => 45
  | .Subscript => 46
  | .TryExcept => 47
  | .TryFinally => 48
  | .Tuple => 49
  | .UnaryOp => 50
  | .With => 51
  | .While => 52
  | .Yield => 53
  | .Store => 54
  | .Load => 55
  | .Param => 56
  | .Not => 57
  | .In => 58
  | .Is => 59
  | .IsNot => 60
  | .Or => 61
  | .And => 62
  | .Eq => 63
  | .NotEq => 64
  | .NotIn => 65
  | .GtE => 66
  | .Gt => 67
  | .Mod => 68
  | .Add => 69
  | .Continue => 70
  | .Lt => 71
  | .LtE => 72
  | .Break => 73
  | .Sub => 74
  | .Del => 75
  | .Mult => 76
  | .Div => 77
  | .USub => 78
  | .BitAnd => 79
  | .BitOr => 80
  | .BitXor => 81
  | .RShift => 82
  | .LShift => 83
  | .Invert => 84
  | .UAdd => 85
  | .FloorDiv => 86
  | .DictComp => 15
  | .Set => 43
  | .Branch => 200
  | .Jump => 201
  | .ClsAttribute => 202
  | .AugBinOp => 203

/-- Spelling of each enumerator in the header. -/
def AST_TYPE.name : AST_TYPE → String
  | .alias => "alias"
  | .arguments => "arguments"
  | .Assert => "Assert"
  | .Assign => "Assign"
  | .Attribute => "Attribute"
  | .AugAssign => "AugAssign"
  | .BinOp => "BinOp"
  | .BoolOp => "BoolOp"
  | .Call => "Call"
  | .ClassDef => "ClassDef"
  | .Compare => "Compare"
  | .comprehension => "comprehension"
  | .Delete => "Delete"
  | .Dict => "Dict"
  | .Exec => "Exec"
  | .ExceptHandler => "ExceptHandler"
  | .ExtSlice => "ExtSlice"
  | .Expr => "Expr"
  | .For => "For"
  | .FunctionDef => "FunctionDef"
  | .GeneratorExp => "GeneratorExp"
  | .Global => "Global"
  | .If => "If"
  | .IfExp => "IfExp"
  | .Import => "Import"
  | .ImportFrom => "ImportFrom"
  | .Index => "Index"
  | .keyword => "keyword"
  | .Lambda => "Lambda"
  | .List => "List"
  | .ListComp => "ListComp"
  | .Module => "Module"
  | .Num => "Num"
  | .Name => "Name"
  | .Pass => "Pass"
  | .Pow => "Pow"
  | .Print => "Print"
  | .Raise => "Raise"
  | .Repr => "Repr"
  | .Return => "Return"
  | .Slice => "Slice"
  | .Str => "Str"
  | .Subscript => "Subscript"
  | .TryExcept => "TryExcept"
  | .TryFinally => "TryFinally"
  | .Tuple => "Tuple"
  | .UnaryOp => "UnaryOp"
  | .With => "With"
  | .While => "While"
  | .Yield => "Yield"
  | .Store => "Store"
  | .Load => "Load"
  | .Param => "Param"
  | .Not => "Not"
  | .In => "In"
  | .Is => "Is"
  | .IsNot => "IsNot"
  | .Or => "Or"
  | .And => "And"
  | .Eq => "Eq"
  | .NotEq => "NotEq"
  | .NotIn => "NotIn"
  | .GtE => "GtE"
  | .Gt => "Gt"
  | .Mod => "Mod"
  | .Add => "Add"
  | .Continue => "Continue"
  | .Lt => "Lt"
  | .LtE => "LtE"
  | .Break => "Break"
  | .Sub => "Sub"
  | .Del => "Del"
  | .Mult => "Mult"
  | .Div => "Div"
  | .USub => "USub"
  | .BitAnd => "BitAnd"
  | .BitOr => "BitOr"
  | .BitXor => "BitXor"
  | .RShift => "RShift"
  | .LShift => "LShift"
  | .Invert => "Invert"
  | .UAdd => "UAdd"
  | .FloorDiv => "FloorDiv"
  | .DictComp => "DictComp"
  | .Set => "Set"
  | .Branch => "Branch"
  | .Jump => "Jump"
  | .ClsAttribute => "ClsAttribute"
  | .AugBinOp => "AugBinOp"

/-- Every enumerator, in the order of the header. -/
def enumerators : List AST_TYPE :=
  [ AST_TYPE.alias, AST_TYPE.arguments, AST_TYPE.Assert, AST_TYPE.Assign, AST_TYPE.Attribute,
    AST_TYPE.AugAssign, AST_TYPE.BinOp, AST_TYPE.BoolOp, AST_TYPE.Call, AST_TYPE.ClassDef,
    AST_TYPE.Compare, AST_TYPE.comprehension, AST_TYPE.Delete, AST_TYPE.Dict, AST_TYPE.Exec,
    AST_TYPE.ExceptHandler, AST_TYPE.ExtSlice, AST_TYPE.Expr, AST_TYPE.For, AST_TYPE.FunctionDef,
    AST_TYPE.GeneratorExp, AST_TYPE.Global, AST_TYPE.If, AST_TYPE.IfExp, AST_TYPE.Import,
    AST_TYPE.ImportFrom, AST_TYPE.Index, AST_TYPE.keyword, AST_TYPE.Lambda, AST_TYPE.List,
    AST_TYPE.ListComp, AST_TYPE.Module, AST_TYPE.Num, AST_TYPE.Name, AST_TYPE.Pass, AST_TYPE.Pow,
    AST_TYPE.Print, AST_TYPE.Raise, AST_TYPE.Repr, AST_TYPE.Return, AST_TYPE.Slice, AST_TYPE.Str,
    AST_TYPE.Subscript, AST_TYPE.TryExcept, AST_TYPE.TryFinally, AST_TYPE.Tuple, AST_TYPE.UnaryOp,
    AST_TYPE.With, AST_TYPE.While, AST_TYPE.Yield, AST_TYPE.Store, AST_TYPE.Load, AST_TYPE.Param,
    AST_TYPE.Not, AST_TYPE.In, AST_TYPE.Is, AST_TYPE.IsNot, AST_TYPE.Or, AST_TYPE.And,
    AST_TYPE.Eq, AST_TYPE.NotEq, AST_TYPE.NotIn, AST_TYPE.GtE, AST_TYPE.Gt, AST_TYPE.Mod,
    AST_TYPE.Add, AST_TYPE.Continue, AST_TYPE.Lt, AST_TYPE.LtE, AST_TYPE.Break, AST_TYPE.Sub,
    AST_TYPE.Del, AST_TYPE.Mult, AST_TYPE.Div, AST_TYPE.USub, AST_TYPE.BitAnd, AST_TYPE.BitOr,
    AST_TYPE.BitXor, AST_TYPE.RShift, AST_TYPE.LShift, AST_TYPE.Invert, AST_TYPE.UAdd,
    AST_TYPE.FloorDiv, AST_TYPE.DictComp, AST_TYPE.Set, AST_TYPE.Branch, AST_TYPE.Jump,
    AST_TYPE.ClsAttribute, AST_TYPE.AugBinOp ]

/-- The enumerators listed under the header's comment
`// Pseudo-nodes that are specific to this compiler:`. -/
def pseudoBlock : List AST_TYPE :=
  [ .Branch, .Jump, .ClsAttribute, .AugBinOp ]

/-! ## The base classes `AST`, `AST_expr`, `AST_stmt` -/

/-- Data members of `class AST`. No constructor of the header assigns `lineno` or
`col_offset`; they are `none` until a producer sets them. -/
structure AST where
  type : AST_TYPE
  lineno : Option Nat
  col_offset : Option Nat
  deriving DecidableEq

/-- The constructor `AST(AST_TYPE::AST_TYPE type) : type(type) {}`. -/
def AST.ctor (type : AST_TYPE) : AST :=
  { type := type, lineno := none, col_offset := none }

/-- The constructor `AST_expr(AST_TYPE::AST_TYPE type) : AST(type) {}`. -/
def AST_expr.ctor (type : AST_TYPE) : AST :=
  AST.ctor type

/-- The constructor `AST_stmt(AST_TYPE::AST_TYPE type) : AST(type) {}`. -/
def AST_stmt.ctor (type : AST_TYPE) : AST :=
  AST.ctor type

/-- The three classes that appear in a base-specifier of a concrete node class. -/
inductive Base where
  | AST | AST_expr | AST_stmt
  deriving DecidableEq

/-! ## The concrete node classes -/

/-- The concrete node classes of the header, in declaration order. -/
inductive NodeClass where
  | AST_alias | AST_arguments | AST_Assign | AST_AugAssign | AST_AugBinOp
  | AST_Attribute | AST_BinOp | AST_BoolOp | AST_Break | AST_Call | AST_Compare
  | AST_comprehension | AST_ClassDef | AST_Continue | AST_Dict | AST_Expr | AST_For
  | AST_FunctionDef | AST_Global | AST_If | AST_IfExp | AST_Import | AST_Index
  | AST_keyword | AST_List | AST_ListComp | AST_Module | AST_Name | AST_Num
  | AST_Pass | AST_Print | AST_Return | AST_Slice | AST_Str | AST_Subscript
  | AST_Tuple | AST_UnaryOp | AST_While | AST_With
  | AST_Branch | AST_Jump | AST_ClsAttribute
  deriving DecidableEq

/-- What the header declares for one concrete node class. -/
structure ClassDecl where
  /-- Spelling of the class. -/
  name : String
  /-- Classes of the base-specifier list (`: public B`). -/
  bases : List Base
  /-- The object built by the nullary constructor (through its mem-initializer). -/
  ctor : AST
  /-- Whether the class declares `virtual void* accept_expr(ExprVisitor *v);`. -/
  accept_expr : Bool
  /-- Whether the class declares `virtual void accept_stmt(StmtVisitor *v);`. -/
  accept_stmt : Bool
  /-- Value of the static constant `TYPE`, when the class declares one. -/
  TYPE : Option Int

/-- Class declarations of the header, one row per concrete node class. -/
def NodeClass.decl : NodeClass → ClassDecl
  | .AST_alias => ⟨"AST_alias", [.AST], AST.ctor .alias, false, false, none⟩
  | .AST_arguments => ⟨"AST_arguments", [.AST], AST.ctor .arguments, false, false, none⟩
  | .AST_Assign => ⟨"AST_Assign", [.AST_stmt], AST_stmt.ctor .Assign, false, true, none⟩
  | .AST_AugAssign => ⟨"AST_AugAssign", [.AST_stmt], AST_stmt.ctor .AugAssign, false, true, none⟩
  | .AST_AugBinOp => ⟨"AST_AugBinOp", [.AST_expr], AST_expr.ctor .AugBinOp, true, false, none⟩
  | .AST_Attribute => ⟨"AST_Attribute", [.AST_expr], AST_expr.ctor .Attribute, true, false, none⟩
  | .AST_BinOp => ⟨"AST_BinOp", [.AST_expr], AST_expr.ctor .BinOp, true, false, none⟩
  | .AST_BoolOp => ⟨"AST_BoolOp", [.AST_expr], AST_expr.ctor .BoolOp, true, false, none⟩
  | .AST_Break => ⟨"AST_Break", [.AST_stmt], AST_stmt.ctor .Break, false, true, none⟩
  | .AST_Call =>
      ⟨"AST_Call", [.AST_expr], AST_expr.ctor .Call, true, false, some (AST_TYPE.val .Call)⟩
  | .AST_Compare => ⟨"AST_Compare", [.AST_expr], AST_expr.ctor .Compare, true, false, none⟩
  | .AST_comprehension =>
      ⟨"AST_comprehension", [.AST], AST.ctor .comprehension, false, false,
        some (AST_TYPE.val .comprehension)⟩
  | .AST_ClassDef => ⟨"AST_ClassDef", [.AST_stmt], AST_stmt.ctor .ClassDef, false, true, none⟩
  | .AST_Continue => ⟨"AST_Continue", [.AST_stmt], AST_stmt.ctor .Continue, false, true, none⟩
  | .AST_Dict => ⟨"AST_Dict", [.AST_expr], AST_expr.ctor .Dict, true, false, none⟩
  | .AST_Expr => ⟨"AST_Expr", [.AST_stmt], AST_stmt.ctor .Expr, false, true, none⟩
  | .AST_For =>
      ⟨"AST_For", [.AST_stmt], AST_stmt.ctor .For, false, true, some (AST_TYPE.val .For)⟩
  | .AST_FunctionDef =>
      ⟨"AST_FunctionDef", [.AST_stmt], AST_stmt.ctor .FunctionDef, false, true,
        some (AST_TYPE.val .FunctionDef)⟩
  | .AST_Global => ⟨"AST_Global", [.AST_stmt], AST_stmt.ctor .Global, false, true, none⟩
  | .AST_If => ⟨"AST_If", [.AST_stmt], AST_stmt.ctor .If, false, true, none⟩
  | .AST_IfExp =>
      ⟨"AST_IfExp", [.AST_expr], AST_expr.ctor .IfExp, true, false, some (AST_TYPE.val .IfExp)⟩
  | .AST_Import => ⟨"AST_Import", [.AST_stmt], AST_stmt.ctor .Import, false, true, none⟩
  | .AST_Index =>
      ⟨"AST_Index", [.AST_expr], AST_expr.ctor .Index, true, false, some (AST_TYPE.val .Index)⟩
  | .AST_keyword =>
      ⟨"AST_keyword", [.AST], AST.ctor .keyword, false, false, some (AST_TYPE.val .keyword)⟩
  | .AST_List =>
      ⟨"AST_List", [.AST_expr], AST_expr.ctor .List, true, false, some (AST_TYPE.val .List)⟩
  | .AST_ListComp =>
      ⟨"AST_ListComp", [.AST_expr], AST_expr.ctor .ListComp, true, false,
        some (AST_TYPE.val .ListComp)⟩
  | .AST_Module =>
      ⟨"AST_Module", [.AST], AST.ctor .Module, false, false, some (AST_TYPE.val .Module)⟩
  | .AST_Name =>
      ⟨"AST_Name", [.AST_expr], AST_expr.ctor .Name, true, false, some (AST_TYPE.val .Name)⟩
  | .AST_Num => ⟨"AST_Num", [.AST_expr], AST_expr.ctor .Num, true, false, none⟩
  | .AST_Pass => ⟨"AST_Pass", [.AST_stmt], AST_stmt.ctor .Pass, false, true, none⟩
  | .AST_Print => ⟨"AST_Print", [.AST_stmt], AST_stmt.ctor .Print, false, true, none⟩
  | .AST_Return => ⟨"AST_Return", [.AST_stmt], AST_stmt.ctor .Return, false, true, none⟩
  | .AST_Slice => ⟨"AST_Slice", [.AST_expr], AST_expr.ctor .Slice, true, false, none⟩
  | .AST_Str => ⟨"AST_Str", [.AST_expr], AST_expr.ctor .Str, true, false, none⟩
  | .AST_Subscript => ⟨"AST_Subscript", [.AST_expr], AST_expr.ctor .Subscript, true, false, none⟩
  | .AST_Tuple => ⟨"AST_Tuple", [.AST_expr], AST_expr.ctor .Tuple, true, false, none⟩
  | .AST_UnaryOp => ⟨"AST_UnaryOp", [.AST_expr], AST_expr.ctor .UnaryOp, true, false, none⟩
  | .AST_While => ⟨"AST_While", [.AST_stmt], AST_stmt.ctor .While, false, true, none⟩
  | .AST_With => ⟨"AST_With", [.AST_stmt], AST_stmt.ctor .With, false, true, none⟩
  | .AST_Branch => ⟨"AST_Branch", [.AST_stmt], AST_stmt.ctor .Branch, false, true, none⟩
  | .AST_Jump => ⟨"AST_Jump", [.AST_stmt], AST_stmt.ctor .Jump, false, true, none⟩
  | .AST_ClsAttribute =>
      ⟨"AST_ClsAttribute", [.AST_expr], AST_expr.ctor .ClsAttribute, true, false, none⟩

/-- Every concrete node class, in declaration order. -/
def NodeClass.all : List NodeClass :=
  [ NodeClass.AST_alias, NodeClass.AST_arguments, NodeClass.AST_Assign, NodeClass.AST_AugAssign,
    NodeClass.AST_AugBinOp, NodeClass.AST_Attribute, NodeClass.AST_BinOp, NodeClass.AST_BoolOp,
    NodeClass.AST_Break, NodeClass.AST_Call, NodeClass.AST_Compare, NodeClass.AST_comprehension,
    NodeClass.AST_ClassDef, NodeClass.AST_Continue, NodeClass.AST_Dict, NodeClass.AST_Expr,
    NodeClass.AST_For, NodeClass.AST_FunctionDef, NodeClass.AST_Global, NodeClass.AST_If,
    NodeClass.AST_IfExp, NodeClass.AST_Import, NodeClass.AST_Index, NodeClass.AST_keyword,
    NodeClass.AST_List, NodeClass.AST_ListComp, NodeClass.AST_Module, NodeClass.AST_Name,
    NodeClass.AST_Num, NodeClass.AST_Pass, NodeClass.AST_Print, NodeClass.AST_Return,
    NodeClass.AST_Slice, NodeClass.AST_Str, NodeClass.AST_Subscript, NodeClass.AST_Tuple,
    NodeClass.AST_UnaryOp, NodeClass.AST_While, NodeClass.AST_With, NodeClass.AST_Branch,
    NodeClass.AST_Jump, NodeClass.AST_ClsAttribute ]

/-- The `type` member of a freshly constructed node of class `K`: the node's Kind. -/
def NodeClass.kind (K : NodeClass) : AST_TYPE :=
  K.decl.ctor.type

/-- Statement family: the class derives `AST_stmt`. -/
def NodeClass.isStmt (K : NodeClass) : Prop :=
  Base.AST_stmt ∈ K.decl.bases

/-- Expression family: the class derives `AST_expr`. -/
def NodeClass.isExpr (K : NodeClass) : Prop :=
  Base.AST_expr ∈ K.decl.bases

instance (K : NodeClass) : Decidable K.isStmt :=
  inferInstanceAs (Decidable (Base.AST_stmt ∈ K.decl.bases))

instance (K : NodeClass) : Decidable K.isExpr :=
  inferInstanceAs (Decidable (Base.AST_expr ∈ K.decl.bases))

/-! ## Visitor interfaces -/

/-- How a call of a handler ends: it returns a value, or the process is ended
by a failed `assert` or by `abort()`. -/
inductive Outcome (α : Type) where
  | returned (a : α)
  | assertFailed
  | aborted
  deriving DecidableEq

/-- Sequencing of statements: a statement that does not return ends the run. -/
def Outcome.bind {α β : Type} : Outcome α → (α → Outcome β) → Outcome β
  | .returned a, f => f a
  | .assertFailed, _ => .assertFailed
  | .aborted, _ => .aborted

instance : Monad Outcome where
  pure := Outcome.returned
  bind := Outcome.bind

/-- The macro `assert(cond)` of `<cassert>`: nothing when `NDEBUG` is defined or the
condition holds, otherwise the assertion fails and the process is ended. -/
def assert (ndebug cond : Bool) : Outcome Unit :=
  if ndebug || cond then pure () else .assertFailed

/-- The function `abort()` of `<cstdlib>`: never returns. -/
def abort {α : Type} : Outcome α :=
  .aborted

/-- Declared return type of a handler. -/
inductive RetType where
  | bool | voidPtr | void
  deriving DecidableEq

/-- A value returned by a handler. -/
inductive Value where
  | bool (b : Bool)
  | ptr (p : Nat)
  | void
  deriving DecidableEq

/-- One `virtual` handler declaration of a visitor class. `N` is the type of the
node pointers handed to handlers. The body takes whether `NDEBUG` is defined and
the node; it is `none` when the header declares the handler without a body. -/
structure HandlerDecl (N : Type) where
  name : String
  ret : RetType
  param : NodeClass
  body : Option (Bool → N → Outcome Value)

/-- Handler declarations of `class ASTVisitor` (the generic role). -/
def ASTVisitor (N : Type) : List (HandlerDecl N) :=
  [
    ⟨"visit_alias", .bool, .AST_alias, some fun ndebug _ => do assert ndebug false; abort⟩,
    ⟨"visit_arguments", .bool, .AST_arguments, some fun ndebug _ => do assert ndebug false; abort⟩,
    ⟨"visit_assign", .bool, .AST_Assign, some fun ndebug _ => do assert ndebug false; abort⟩,
    ⟨"visit_augassign", .bool, .AST_AugAssign, some fun ndebug _ => do assert ndebug false; abort⟩,
    ⟨"visit_augbinop", .bool, .AST_AugBinOp, some fun ndebug _ => do assert ndebug false; abort⟩,
    ⟨"visit_attribute", .bool, .AST_Attribute, some fun ndebug _ => do assert ndebug false; abort⟩,
    ⟨"visit_binop", .bool, .AST_BinOp, some fun ndebug _ => do assert ndebug false; abort⟩,
    ⟨"visit_boolop", .bool, .AST_BoolOp, some fun ndebug _ => do assert ndebug false; abort⟩,
    ⟨"visit_break", .bool, .AST_Break, some fun ndebug _ => do assert ndebug false; abort⟩,
    ⟨"visit_call", .bool, .AST_Call, some fun ndebug _ => do assert ndebug false; abort⟩,
    ⟨"visit_clsattribute", .bool, .AST_ClsAttribute, some fun ndebug _ => do assert ndebug false; abort⟩,
    ⟨"visit_compare", .bool, .AST_Compare, some fun ndebug _ => do assert ndebug false; abort⟩,
    ⟨"visit_comprehension", .bool, .AST_comprehension, some fun ndebug _ => do assert ndebug false; abort⟩,
    ⟨"visit_classdef", .bool, .AST_ClassDef, some fun ndebug _ => do assert ndebug false; abort⟩,
    ⟨"visit_continue", .bool, .AST_Continue, some fun ndebug _ => do assert ndebug false; abort⟩,
    ⟨"visit_dict", .bool, .AST_Dict, some fun ndebug _ => do assert ndebug false; abort⟩,
    ⟨"visit_expr", .bool, .AST_Expr, some fun ndebug _ => do assert ndebug false; abort⟩,
    ⟨"visit_for", .bool, .AST_For, some fun ndebug _ => do assert ndebug false; abort⟩,
    ⟨"visit_functiondef", .bool, .AST_FunctionDef, some fun ndebug _ => do assert ndebug false; abort⟩,
    ⟨"visit_global", .bool, .AST_Global, some fun ndebug _ => do assert ndebug false; abort⟩,
    ⟨"visit_if", .bool, .AST_If, some fun ndebug _ => do assert ndebug false; abort⟩,
    ⟨"visit_ifexp", .bool, .AST_IfExp, some fun ndebug _ => do assert ndebug false; abort⟩,
    ⟨"visit_import", .bool, .AST_Import, some fun ndebug _ => do assert ndebug false; abort⟩,
    ⟨"visit_index", .bool, .AST_Index, some fun ndebug _ => do assert ndebug false; abort⟩,
    ⟨"visit_keyword", .bool, .AST_keyword, some fun ndebug _ => do assert ndebug false; abort⟩,
    ⟨"visit_list", .bool, .AST_List, some fun ndebug _ => do assert ndebug false; abort⟩,
    ⟨"visit_listcomp", .bool, .AST_ListComp, some fun ndebug _ => do assert ndebug false; abort⟩,
    ⟨"visit_module", .bool, .AST_Module, some fun ndebug _ => do assert ndebug false; abort⟩,
    ⟨"visit_name", .bool, .AST_Name, some fun ndebug _ => do assert ndebug false; abort⟩,
    ⟨"visit_num", .bool, .AST_Num, some fun ndebug _ => do assert ndebug false; abort⟩,
    ⟨"visit_pass", .bool, .AST_Pass, some fun ndebug _ => do assert ndebug false; abort⟩,
    ⟨"visit_print", .bool, .AST_Print, some fun ndebug _ => do assert ndebug false; abort⟩,
    ⟨"visit_return", .bool, .AST_Return, some fun ndebug _ => do assert ndebug false; abort⟩,
    ⟨"visit_slice", .bool, .AST_Slice, some fun ndebug _ => do assert ndebug false; abort⟩,
    ⟨"visit_str", .bool, .AST_Str, some fun ndebug _ => do assert ndebug false; abort⟩,
    ⟨"visit_subscript", .bool, .AST_Subscript, some fun ndebug _ => do assert ndebug false; abort⟩,
    ⟨"visit_tuple", .bool, .AST_Tuple, some fun ndebug _ => do assert ndebug false; abort⟩,
    ⟨"visit_unaryop", .bool, .AST_UnaryOp, some fun ndebug _ => do assert ndebug false; abort⟩,
    ⟨"visit_while", .bool, .AST_While, some fun ndebug _ => do assert ndebug false; abort⟩,
    ⟨"visit_with", .bool, .AST_With, some fun ndebug _ => do assert ndebug false; abort⟩,
    ⟨"visit_branch", .bool, .AST_Branch, some fun ndebug _ => do assert ndebug false; abort⟩,
    ⟨"visit_jump", .bool, .AST_Jump, some fun ndebug _ => do assert ndebug false; abort⟩
  ]

/-- Handler declarations of `class NoopASTVisitor : public ASTVisitor`. -/
def NoopASTVisitor (N : Type) : List (HandlerDecl N) :=
  [
    ⟨"visit_alias", .bool, .AST_alias, some fun _ _ => do return .bool false⟩,
    ⟨"visit_arguments", .bool, .AST_arguments, some fun _ _ => do return .bool false⟩,
    ⟨"visit_assign", .bool, .AST_Assign, some fun _ _ => do return .bool false⟩,
    ⟨"visit_augassign", .bool, .AST_AugAssign, some fun _ _ => do return .bool false⟩,
    ⟨"visit_augbinop", .bool, .AST_AugBinOp, some fun _ _ => do return .bool false⟩,
    ⟨"visit_attribute", .bool, .AST_Attribute, some fun _ _ => do return .bool false⟩,
    ⟨"visit_binop", .bool, .AST_BinOp, some fun _ _ => do return .bool false⟩,
    ⟨"visit_boolop", .bool, .AST_BoolOp, some fun _ _ => do return .bool false⟩,
    ⟨"visit_break", .bool, .AST_Break, some fun _ _ => do return .bool false⟩,
    ⟨"visit_call", .bool, .AST_Call, some fun _ _ => do return .bool false⟩,
    ⟨"visit_clsattribute", .bool, .AST_ClsAttribute, some fun _ _ => do return .bool false⟩,
    ⟨"visit_compare", .bool, .AST_Compare, some fun _ _ => do return .bool false⟩,
    ⟨"visit_comprehension", .bool, .AST_comprehension, some fun _ _ => do return .bool false⟩,
    ⟨"visit_classdef", .bool, .AST_ClassDef, some fun _ _ => do return .bool false⟩,
    ⟨"visit_continue", .bool, .AST_Continue, some fun _ _ => do return .bool false⟩,
    ⟨"visit_dict", .bool, .AST_Dict, some fun _ _ => do return .bool false⟩,
    ⟨"visit_expr", .bool, .AST_Expr, some fun _ _ => do return .bool false⟩,
    ⟨"visit_for", .bool, .AST_For, some fun _ _ => do return .bool false⟩,
    ⟨"visit_functiondef", .bool, .AST_FunctionDef, some fun _ _ => do return .bool false⟩,
    ⟨"visit_global", .bool, .AST_Global, some fun _ _ => do return .bool false⟩,
    ⟨"visit_if", .bool, .AST_If, some fun _ _ => do return .bool false⟩,
    ⟨"visit_ifexp", .bool, .AST_IfExp, some fun _ _ => do return .bool false⟩,
    ⟨"visit_import", .bool, .AST_Import, some fun _ _ => do return .bool false⟩,
    ⟨"visit_index", .bool, .AST_Index, some fun _ _ => do return .bool false⟩,
    ⟨"visit_keyword", .bool, .AST_keyword, some fun _ _ => do return .bool false⟩,
    ⟨"visit_list", .bool, .AST_List, some fun _ _ => do return .bool false⟩,
    ⟨"visit_listcomp", .bool, .AST_ListComp, some fun _ _ => do return .bool false⟩,
    ⟨"visit_module", .bool, .AST_Module, some fun _ _ => do return .bool false⟩,
    ⟨"visit_name", .bool, .AST_Name, some fun _ _ => do return .bool false⟩,
    ⟨"visit_num", .bool, .AST_Num, some fun _ _ => do return .bool false⟩,
    ⟨"visit_pass", .bool, .AST_Pass, some fun _ _ => do return .bool false⟩,
    ⟨"visit_print", .bool, .AST_Print, some fun _ _ => do return .bool false⟩,
    ⟨"visit_return", .bool, .AST_Return, some fun _ _ => do return .bool false⟩,
    ⟨"visit_slice", .bool, .AST_Slice, some fun _ _ => do return .bool false⟩,
    ⟨"visit_str", .bool, .AST_Str, some fun _ _ => do return .bool false⟩,
    ⟨"visit_subscript", .bool, .AST_Subscript, some fun _ _ => do return .bool false⟩,
    ⟨"visit_tuple", .bool, .AST_Tuple, some fun _ _ => do return .bool false⟩,
    ⟨"visit_unaryop", .bool, .AST_UnaryOp, some fun _ _ => do return .bool false⟩,
    ⟨"visit_while", .bool, .AST_While, some fun _ _ => do return .bool false⟩,
    ⟨"visit_with", .bool, .AST_With, some fun _ _ => do return .bool false⟩,
    ⟨"visit_branch", .bool, .AST_Branch, some fun _ _ => do return .bool false⟩,
    ⟨"visit_jump", .bool, .AST_Jump, some fun _ _ => do return .bool false⟩
  ]

/-- Handler declarations of `class ExprVisitor` (the expression-result role). -/
def ExprVisitor (N : Type) : List (HandlerDecl N) :=
  [
    ⟨"visit_augbinop", .voidPtr, .AST_AugBinOp, some fun ndebug _ => do assert ndebug false; abort⟩,
    ⟨"visit_attribute", .voidPtr, .AST_Attribute, some fun ndebug _ => do assert ndebug false; abort⟩,
    ⟨"visit_binop", .voidPtr, .AST_BinOp, some fun ndebug _ => do assert ndebug false; abort⟩,
    ⟨"visit_boolop", .voidPtr, .AST_BoolOp, some fun ndebug _ => do assert ndebug false; abort⟩,
    ⟨"visit_call", .voidPtr, .AST_Call, some fun ndebug _ => do assert ndebug false; abort⟩,
    ⟨"visit_clsattribute", .voidPtr, .AST_ClsAttribute, some fun ndebug _ => do assert ndebug false; abort⟩,
    ⟨"visit_compare", .voidPtr, .AST_Compare, some fun ndebug _ => do assert ndebug false; abort⟩,
    ⟨"visit_dict", .voidPtr, .AST_Dict, some fun ndebug _ => do assert ndebug false; abort⟩,
    ⟨"visit_ifexp", .voidPtr, .AST_IfExp, some fun ndebug _ => do assert ndebug false; abort⟩,
    ⟨"visit_index", .voidPtr, .AST_Index, some fun ndebug _ => do assert ndebug false; abort⟩,
    ⟨"visit_list", .voidPtr, .AST_List, some fun ndebug _ => do assert ndebug false; abort⟩,
    ⟨"visit_listcomp", .voidPtr, .AST_ListComp, some fun ndebug _ => do assert ndebug false; abort⟩,
    ⟨"visit_name", .voidPtr, .AST_Name, some fun ndebug _ => do assert ndebug false; abort⟩,
    ⟨"visit_num", .voidPtr, .AST_Num, some fun ndebug _ => do assert ndebug false; abort⟩,
    ⟨"visit_slice", .voidPtr, .AST_Slice, some fun ndebug _ => do assert ndebug false; abort⟩,
    ⟨"visit_str", .voidPtr, .AST_Str, some fun ndebug _ => do assert ndebug false; abort⟩,
    ⟨"visit_subscript", .voidPtr, .AST_Subscript, some fun ndebug _ => do assert ndebug false; abort⟩,
    ⟨"visit_tuple", .voidPtr, .AST_Tuple, some fun ndebug _ => do assert ndebug false; abort⟩,
    ⟨"visit_unaryop", .voidPtr, .AST_UnaryOp, some fun ndebug _ => do assert ndebug false; abort⟩
  ]

/-- Handler declarations of `class StmtVisitor` (the statement-effect role). -/
def StmtVisitor (N : Type) : List (HandlerDecl N) :=
  [
    ⟨"visit_assign", .void, .AST_Assign, some fun ndebug _ => do assert ndebug false; abort⟩,
    ⟨"visit_augassign", .void, .AST_AugAssign, some fun ndebug _ => do assert ndebug false; abort⟩,
    ⟨"visit_break", .void, .AST_Break, some fun ndebug _ => do assert ndebug false; abort⟩,
    ⟨"visit_classdef", .void, .AST_ClassDef, some fun ndebug _ => do assert ndebug false; abort⟩,
    ⟨"visit_continue", .void, .AST_Continue, some fun ndebug _ => do assert ndebug false; abort⟩,
    ⟨"visit_expr", .void, .AST_Expr, some fun ndebug _ => do assert ndebug false; abort⟩,
    ⟨"visit_for", .void, .AST_For, some fun ndebug _ => do assert ndebug false; abort⟩,
    ⟨"visit_functiondef", .void, .AST_FunctionDef, some fun ndebug _ => do assert ndebug false; abort⟩,
    ⟨"visit_global", .void, .AST_Global, some fun ndebug _ => do assert ndebug false; abort⟩,
    ⟨"visit_if", .void, .AST_If, some fun ndebug _ => do assert ndebug false; abort⟩,
    ⟨"visit_import", .void, .AST_Import, some fun ndebug _ => do assert ndebug false; abort⟩,
    ⟨"visit_pass", .void, .AST_Pass, some fun ndebug _ => do assert ndebug false; abort⟩,
    ⟨"visit_print", .void, .AST_Print, some fun ndebug _ => do assert ndebug false; abort⟩,
    ⟨"visit_return", .void, .AST_Return, some fun ndebug _ => do assert ndebug false; abort⟩,
    ⟨"visit_while", .void, .AST_While, some fun ndebug _ => do assert ndebug false; abort⟩,
    ⟨"visit_with", .void, .AST_With, some fun ndebug _ => do assert ndebug false; abort⟩,
    ⟨"visit_branch", .void, .AST_Branch, some fun ndebug _ => do assert ndebug false; abort⟩,
    ⟨"visit_jump", .void, .AST_Jump, some fun ndebug _ => do assert ndebug false; abort⟩
  ]

/-- Handler declarations of `class PrintVisitor : public ASTVisitor`; the header
declares them and gives no body. -/
def PrintVisitor (N : Type) : List (HandlerDecl N) :=
  [
    ⟨"visit_alias", .bool, .AST_alias, none⟩,
    ⟨"visit_arguments", .bool, .AST_arguments, none⟩,
    ⟨"visit_assign", .bool, .AST_Assign, none⟩,
    ⟨"visit_augassign", .bool, .AST_AugAssign, none⟩,
    ⟨"visit_augbinop", .bool, .AST_AugBinOp, none⟩,
    ⟨"visit_attribute", .bool, .AST_Attribute, none⟩,
    ⟨"visit_binop", .bool, .AST_BinOp, none⟩,
    ⟨"visit_boolop", .bool, .AST_BoolOp, none⟩,
    ⟨"visit_break", .bool, .AST_Break, none⟩,
    ⟨"visit_call", .bool, .AST_Call, none⟩,
    ⟨"visit_compare", .bool, .AST_Compare, none⟩,
    ⟨"visit_comprehension", .bool, .AST_comprehension, none⟩,
    ⟨"visit_classdef", .bool, .AST_ClassDef, none⟩,
    ⟨"visit_clsattribute", .bool, .AST_ClsAttribute, none⟩,
    ⟨"visit_continue", .bool, .AST_Continue, none⟩,
    ⟨"visit_dict", .bool, .AST_Dict, none⟩,
    ⟨"visit_expr", .bool, .AST_Expr, none⟩,
    ⟨"visit_for", .bool, .AST_For, none⟩,
    ⟨"visit_functiondef", .bool, .AST_FunctionDef, none⟩,
    ⟨"visit_global", .bool, .AST_Global, none⟩,
    ⟨"visit_if", .bool, .AST_If, none⟩,
    ⟨"visit_ifexp", .bool, .AST_IfExp, none⟩,
    ⟨"visit_import", .bool, .AST_Import, none⟩,
    ⟨"visit_index", .bool, .AST_Index, none⟩,
    ⟨"visit_keyword", .bool, .AST_keyword, none⟩,
    ⟨"visit_list", .bool, .AST_List, none⟩,
    ⟨"visit_listcomp", .bool, .AST_ListComp, none⟩,
    ⟨"visit_module", .bool, .AST_Module, none⟩,
    ⟨"visit_name", .bool, .AST_Name, none⟩,
    ⟨"visit_num", .bool, .AST_Num, none⟩,
    ⟨"visit_pass", .bool, .AST_Pass, none⟩,
    ⟨"visit_print", .bool, .AST_Print, none⟩,
    ⟨"visit_return", .bool, .AST_Return, none⟩,
    ⟨"visit_slice", .bool, .AST_Slice, none⟩,
    ⟨"visit_str", .bool, .AST_Str, none⟩,
    ⟨"visit_subscript", .bool, .AST_Subscript, none⟩,
    ⟨"visit_tuple", .bool, .AST_Tuple, none⟩,
    ⟨"visit_unaryop", .bool, .AST_UnaryOp, none⟩,
    ⟨"visit_while", .bool, .AST_While, none⟩,
    ⟨"visit_with", .bool, .AST_With, none⟩,
    ⟨"visit_branch", .bool, .AST_Branch, none⟩,
    ⟨"visit_jump", .bool, .AST_Jump, none⟩
  ]

/-! ## Binding a call to a handler -/

/-- Handlers of the visitor interface `v` that take a node of class `K`: the
handlers a call `v->visit_...(this)` made from a member function of `K` can bind
to. A `K*` argument converts only to `K*` or to a pointer to a base of `K`; every
handler parameter is a concrete node class, and no concrete node class is a base
of another. -/
def handlersFor {N : Type} (v : List (HandlerDecl N)) (K : NodeClass) : List (HandlerDecl N) :=
  v.filter fun h => h.param == K

/-- The declaration in a derived visitor class that overrides the base-class
handler `h`: same name and same parameter type. `none` when the derived class
declares no such handler, so that a virtual call runs the base-class body. -/
def overrideOf {N : Type} (derived : List (HandlerDecl N)) (h : HandlerDecl N) :
    Option (HandlerDecl N) :=
  derived.find? fun d => d.name == h.name && d.param == h.param

/-- Resolution of a virtual call of the `ASTVisitor` handler `h` on a visitor
object. `chain` holds the handler declarations of the class of the object and of
its base classes below `ASTVisitor`, most derived first: `[]` for an `ASTVisitor`
itself, `[NoopASTVisitor N]` for a `NoopASTVisitor`, `[t, NoopASTVisitor N]` for a
class that derives `NoopASTVisitor` and declares `t`. The call runs the override of
the most derived class that declares one, and `h` itself when none does. -/
def finalOverrider {N : Type} : List (List (HandlerDecl N)) → HandlerDecl N → HandlerDecl N
  | [], h => h
  | cls :: bases, h =>
    match overrideOf cls h with
    | some d => d
    | none => finalOverrider bases h

/-- Modelled from the spec: the handlers of the generic role registered for a Kind
(§8, "the handler registered for K"): the handlers of `ASTVisitor` whose parameter
class is constructed with that Kind. -/
def registeredFor (N : Type) (type : AST_TYPE) : List (HandlerDecl N) :=
  (ASTVisitor N).filter fun h => h.param.decl.ctor.type == type

/-- Modelled from the spec: the handler call of the member functions
`virtual void accept(ASTVisitor *v)`, which the header declares in every node class
and does not define. Following §4.2 ("exactly one handler fires per node, selected
solely by Kind") and §8 ("invokes exactly the handler registered for K"), for a
node whose `type` is `type` the handlers registered for that Kind are called on
the visitor object, each by a virtual call resolved along `chain` (see
`finalOverrider`). The result lists the handlers that run for the node itself. -/
def accept {N : Type} (chain : List (List (HandlerDecl N))) (type : AST_TYPE) :
    List (HandlerDecl N) :=
  (registeredFor N type).map (finalOverrider chain)

/-- Modelled from the spec: `accept` on a node of class `K` with a visitor object
whose class derives `ASTVisitor` directly and declares `derived`; the instance of
`accept` at the one-class chain `[derived]`. -/
def dispatchGeneric {N : Type} (derived : List (HandlerDecl N)) (K : NodeClass) :
    List (HandlerDecl N) :=
  accept [derived] K.decl.ctor.type

/-- Modelled from the spec: whether `accept` on a node of class `K` runs a default
body of `ASTVisitor`, for a visitor object with the inheritance chain `chain` (as
in `finalOverrider`): some handler registered for the Kind of `K` is overridden
by no class of the chain. -/
def defaultReached {N : Type} (chain : List (List (HandlerDecl N))) (K : NodeClass) : Bool :=
  (registeredFor N K.decl.ctor.type).any fun h => chain.all fun c => (overrideOf c h).isNone

/-- Modelled from the spec: whether dispatching the generic role on a node of class
`K` runs a default body of `ASTVisitor`, for a visitor class that derives
`ASTVisitor` directly and declares `derived`; the instance of `defaultReached` at
the one-class chain `[derived]`. -/
def reachesDefault {N : Type} (derived : List (HandlerDecl N)) (K : NodeClass) : Bool :=
  defaultReached [derived] K

/-! ## `findNodes` -/

/-- The template
`template <class T, class R> void findNodes(const R &roots, std::vector<T*> &output, bool expand_scopes)`.

* `typeOf n` reads `n->type`.
* `flatten roots out expand_scopes` is the content of the output vector after
  `flatten(roots, out, expand_scopes)`; the header declares `flatten` and does not
  define it.
* The result is the content of `output` after the call, or `none` when `T`
  declares no `TYPE` (the template does not instantiate).

`n->type == T::TYPE` compares integer values: `TYPE` is an `int` in `AST_For` and
`AST_FunctionDef` and an enumerator elsewhere. -/
def findNodes {R N : Type} (typeOf : N → AST_TYPE) (flatten : R → List N → Bool → List N)
    (T : NodeClass) (roots : R) (output : List N) (expand_scopes : Bool) : Option (List N) :=
  match T.decl.TYPE with
  | none => none
  | some TYPE =>
    let flattened := flatten roots [] expand_scopes
    some (flattened.foldl
      (fun output n => if (typeOf n).val = TYPE then output ++ [n] else output) output)

/-! ## Trees and `flatten` -/

/-- Modelled from the spec: a node of the tree of §3, as the class it was
constructed as (its Kind is the `type` that the constructor of `cls` stores), its
position, and the ordered sequence of the child nodes it owns. The header gives
every class its own child fields; the order in which they are visited is fixed by
the `accept` bodies, which the header does not define, so the child references are
kept as one sequence. For a scope-introducing node the children are its nested
body. A value of this type owns its children: no node is shared and there is no
cycle. -/
inductive Node where
  | mk (cls : NodeClass) (lineno col_offset : Nat) (children : List Node)

/-- Class the node was constructed as. -/
def Node.cls : Node → NodeClass
  | .mk cls _ _ _ => cls

/-- Child nodes, in order. -/
def Node.children : Node → List Node
  | .mk _ _ _ children => children

/-- The member `type` of the node, stored by the constructor of its class. -/
def Node.type (n : Node) : AST_TYPE :=
  n.cls.decl.ctor.type

/-- Modelled from the spec: the scope-introducing kinds of §4.3,
"function/class/lambda definition". -/
def isScope (t : AST_TYPE) : Bool :=
  t = AST_TYPE.FunctionDef || t = AST_TYPE.ClassDef || t = AST_TYPE.Lambda

mutual
/-- Modelled from the spec: `flatten` at one node (§4.3); the header declares
`flatten` and does not define it. The node is pushed on the output, then its
children are flattened left to right; with `expand_scopes = false` a
scope-introducing node is still pushed but its nested body is not entered. -/
def flattenNode (expand_scopes : Bool) : Node → List Node → List Node
  | .mk cls lineno col_offset children, output =>
    let output := output ++ [Node.mk cls lineno col_offset children]
    if expand_scopes || !isScope cls.decl.ctor.type then
      flattenNodes expand_scopes children output
    else
      output
/-- Modelled from the spec: `flatten` along a sequence of nodes, left to right. -/
def flattenNodes (expand_scopes : Bool) : List Node → List Node → List Node
  | [], output => output
  | n :: ns, output => flattenNodes expand_scopes ns (flattenNode expand_scopes n output)
end

/-- Modelled from the spec: the function
`void flatten(const std::vector<AST_stmt*> &roots, std::vector<AST*> &output, bool expand_scopes)`
of §4.3, which the header declares and does not define. The result is the content
of `output` after the call. -/
def flatten (roots : List Node) (output : List Node) (expand_scopes : Bool) : List Node :=
  flattenNodes expand_scopes roots output

mutual
/-- Number of nodes of the tree rooted at a node. -/
def Node.size : Node → Nat
  | .mk _ _ _ children => 1 + Node.sizeList children
/-- Number of nodes of a sequence of trees. -/
def Node.sizeList : List Node → Nat
  | [] => 0
  | n :: ns => n.size + Node.sizeList ns
end

mutual
/-- The pre-order sequence of a tree: the root, then the pre-order sequences of its
children, left to right. -/
def preorder : Node → List Node
  | .mk cls lineno col_offset children =>
    Node.mk cls lineno col_offset children :: preorderList children
/-- The pre-order sequences of a sequence of trees, one after the other. -/
def preorderList : List Node → List Node
  | [] => []
  | n :: ns => preorder n ++ preorderList ns
end

/-- The relation `x.Under n`: `x` is `n` or a descendant of `n`. -/
inductive Node.Under : Node → Node → Prop where
  | self (n : Node) : Node.Under n n
  | child {x c n : Node} : c ∈ n.children → Node.Under x c → Node.Under x n

/-- A function definition with a body of two statements: `def f(): global b; pass`. -/
def functionExample : Node :=
  Node.mk NodeClass.AST_FunctionDef 2 0
    [Node.mk NodeClass.AST_Global 3 4 [], Node.mk NodeClass.AST_Pass 4 4 []]

/-- A module body with `global` directives at three nesting depths:
`global a`, then `def f` holding `global b` and `if ...: global c`, then `pass`. -/
def globalsExample : List Node :=
  [ Node.mk NodeClass.AST_Global 1 0 [],
    Node.mk NodeClass.AST_FunctionDef 2 0
      [ Node.mk NodeClass.AST_arguments 0 0 [],
        Node.mk NodeClass.AST_Global 3 4 [],
        Node.mk NodeClass.AST_If 4 4
          [ Node.mk NodeClass.AST_Name 4 7 [],
            Node.mk NodeClass.AST_Global 5 8 [] ] ],
    Node.mk NodeClass.AST_Pass 6 0 [] ]

/-! ## Shared lemmas -/

theorem mem_all (K : NodeClass) : K ∈ NodeClass.all := by
  cases K <;> decide

theorem mem_enumerators (t : AST_TYPE) : t ∈ enumerators := by
  cases t <;> decide

theorem val_nodup : (enumerators.map AST_TYPE.val).Nodup := by
  decide

theorem kind_nodup : (NodeClass.all.map NodeClass.kind).Nodup := by
  decide

theorem val_injective (t t' : AST_TYPE) (h : t.val = t'.val) : t = t' :=
  List.inj_on_of_nodup_map val_nodup (mem_enumerators t) (mem_enumerators t') h

theorem kind_injective (K K' : NodeClass) (h : K.kind = K'.kind) : K = K' :=
  List.inj_on_of_nodup_map kind_nodup (mem_all K) (mem_all K') h

/-- An override found in a derived class is one of its declarations and has the
name and the parameter class of the handler it overrides. -/
theorem overrideOf_sound {N : Type} {derived : List (HandlerDecl N)} {h d : HandlerDecl N}
    (hd : overrideOf derived h = some d) :
    d ∈ derived ∧ d.name = h.name ∧ d.param = h.param := by
  unfold overrideOf at hd
  have hp := List.find?_some hd
  simp only [Bool.and_eq_true, beq_iff_eq] at hp
  exact ⟨List.mem_of_find?_eq_some hd, hp.1, hp.2⟩

/-- Pushing the elements that satisfy `p` one by one appends the filtered list. -/
theorem foldl_push_filter {N : Type} (p : N → Prop) [DecidablePred p] (l out : List N) :
    l.foldl (fun output n => if p n then output ++ [n] else output) out
      = out ++ l.filter (fun n => decide (p n)) := by
  induction l generalizing out with
  | nil => simp
  | cons a l ih =>
    by_cases ha : p a <;> simp [List.foldl_cons, List.filter_cons, ha, ih]

/-- Exactly one handler of `ASTVisitor` takes a node of class `K`. -/
theorem handlersFor_ASTVisitor (N : Type) (K : NodeClass) :
    ∃ h, handlersFor (ASTVisitor N) K = [h] ∧ h.param = K := by
  cases K <;> exact ⟨_, rfl, rfl⟩

/-- A handler selected by `handlersFor` is a handler of the interface. -/
theorem mem_of_handlersFor {N : Type} {v : List (HandlerDecl N)} {K : NodeClass}
    {h : HandlerDecl N} (hh : handlersFor v K = [h]) : h ∈ v := by
  have hm : h ∈ handlersFor v K := by rw [hh]; exact List.mem_singleton.mpr rfl
  exact (List.mem_filter.mp hm).1

/-- The handlers registered for the Kind of a class are the handlers that take a
node of that class: the Kind determines the class. -/
theorem registeredFor_kind (N : Type) (K : NodeClass) :
    registeredFor N K.decl.ctor.type = handlersFor (ASTVisitor N) K := by
  unfold registeredFor handlersFor
  apply List.filter_congr
  intro h _
  by_cases e : h.param = K
  · simp [e]
  · have e' : ¬ h.param.decl.ctor.type = K.decl.ctor.type := fun t => e (kind_injective _ _ t)
    simp [e, e']

/-- A virtual call runs the override of the most derived class of the chain that
declares one, or the `ASTVisitor` handler itself when no class of the chain does. -/
theorem finalOverrider_spec {N : Type} (chain : List (List (HandlerDecl N)))
    (h : HandlerDecl N) :
    (∃ pre cls post, chain = pre ++ cls :: post ∧ (∀ c ∈ pre, overrideOf c h = none) ∧
      overrideOf cls h = some (finalOverrider chain h)) ∨
    ((∀ c ∈ chain, overrideOf c h = none) ∧ finalOverrider chain h = h) := by
  induction chain with
  | nil => exact Or.inr ⟨fun c hc => absurd hc (List.not_mem_nil c), rfl⟩
  | cons cls bases ih =>
    cases ho : overrideOf cls h with
    | some d =>
      refine Or.inl ⟨[], cls, bases, rfl, fun c hc => absurd hc (List.not_mem_nil c), ?_⟩
      simp [finalOverrider, ho]
    | none =>
      have hf : finalOverrider (cls :: bases) h = finalOverrider bases h := by
        simp [finalOverrider, ho]
      rcases ih with ⟨pre, c, post, hch, hpre, hc⟩ | ⟨hall, hd⟩
      · refine Or.inl ⟨cls :: pre, c, post, by simp [hch], ?_, by rw [hf]; exact hc⟩
        intro x hx
        rcases List.mem_cons.mp hx with rfl | hx
        · exact ho
        · exact hpre x hx
      · refine Or.inr ⟨?_, by rw [hf]; exact hd⟩
        intro x hx
        rcases List.mem_cons.mp hx with rfl | hx
        · exact ho
        · exact hall x hx

/-- The handler a virtual call runs has the name and the parameter class of the
`ASTVisitor` handler that is called. -/
theorem finalOverrider_sig {N : Type} (chain : List (List (HandlerDecl N)))
    (h : HandlerDecl N) :
    (finalOverrider chain h).name = h.name ∧ (finalOverrider chain h).param = h.param := by
  rcases finalOverrider_spec chain h with ⟨_, _, _, _, _, hc⟩ | ⟨_, hd⟩
  · exact (overrideOf_sound hc).2
  · rw [hd]; exact ⟨rfl, rfl⟩

/-- The accept call on a node of class `K` in terms of the handlers taking a `K` node. -/
theorem accept_kind {N : Type} (chain : List (List (HandlerDecl N))) (K : NodeClass) :
    accept chain K.decl.ctor.type = (handlersFor (ASTVisitor N) K).map (finalOverrider chain) := by
  unfold accept
  rw [registeredFor_kind]

/-- Whether a default body is reached, in terms of the handlers taking a `K` node. -/
theorem reachesDefault_eq {N : Type} (derived : List (HandlerDecl N)) (K : NodeClass) :
    reachesDefault derived K
      = (handlersFor (ASTVisitor N) K).any fun h => (overrideOf derived h).isNone := by
  unfold reachesDefault defaultReached
  rw [registeredFor_kind]
  simp

/-! ## The generic role -/

/-- C1: there are 42 concrete node classes and `ASTVisitor` declares 42 handlers,
no two with the same parameter class or the same name; for every concrete node
class `K` exactly one handler of `ASTVisitor` takes a `K` node. Hence `accept` on a
node of Kind `K`, with a visitor object of any class below `ASTVisitor`, runs
exactly one handler: it has the name of the `ASTVisitor` handler registered for `K`
and parameter class `K`, and it is the override declared by the most derived class
of the visitor that declares one, or the `ASTVisitor` handler itself when no class
does. In particular an `ASTVisitor` runs its default body, and an object of a
class that derives `NoopASTVisitor` and declares nothing runs the handler of
`NoopASTVisitor`, which returns `false`. -/
theorem ASTVisitor_one_handler_per_class (N : Type) :
    NodeClass.all.length = 42 ∧ (∀ K : NodeClass, K ∈ NodeClass.all) ∧
    (ASTVisitor N).length = 42 ∧
    ((ASTVisitor N).map (·.param)).Nodup ∧ ((ASTVisitor N).map (·.name)).Nodup ∧
    (∀ K : NodeClass, ∃ h ∈ ASTVisitor N, h.param = K ∧ handlersFor (ASTVisitor N) K = [h]) ∧
    (∀ (chain : List (List (HandlerDecl N))) (K : NodeClass), ∃ h ∈ ASTVisitor N, ∃ d,
      h.param = K ∧ registeredFor N K.decl.ctor.type = [h] ∧
      accept chain K.decl.ctor.type = [d] ∧ d.name = h.name ∧ d.param = K ∧
      ((∃ pre cls post, chain = pre ++ cls :: post ∧ (∀ c ∈ pre, overrideOf c h = none) ∧
          overrideOf cls h = some d) ∨
        ((∀ c ∈ chain, overrideOf c h = none) ∧ d = h))) ∧
    (∀ K : NodeClass, ∃ h b, accept ([] : List (List (HandlerDecl N))) K.decl.ctor.type = [h] ∧
      h.body = some b ∧ ∀ (ndebug : Bool) (node : N),
        b ndebug node = (if ndebug then Outcome.aborted else Outcome.assertFailed)) ∧
    (∀ K : NodeClass, ∃ d b, accept [[], NoopASTVisitor N] K.decl.ctor.type = [d] ∧
      d.body = some b ∧ ∀ (ndebug : Bool) (node : N),
        b ndebug node = Outcome.returned (Value.bool false)) := by
  refine ⟨rfl, mem_all, rfl, of_decide_eq_true rfl, of_decide_eq_true rfl, ?_, ?_, ?_, ?_⟩
  · intro K
    obtain ⟨h, hh, hK⟩ := handlersFor_ASTVisitor N K
    exact ⟨h, mem_of_handlersFor hh, hK, hh⟩
  · intro chain K
    obtain ⟨h, hh, hK⟩ := handlersFor_ASTVisitor N K
    have hs := finalOverrider_sig chain h
    refine ⟨h, mem_of_handlersFor hh, finalOverrider chain h, hK, ?_, ?_, hs.1,
      hs.2.trans hK, finalOverrider_spec chain h⟩
    · rw [registeredFor_kind, hh]
    · rw [accept_kind, hh]
      rfl
  · intro K
    rw [accept_kind]
    cases K <;> exact ⟨_, _, rfl, rfl, fun ndebug _ => by cases ndebug <;> rfl⟩
  · intro K
    rw [accept_kind]
    cases K <;> exact ⟨_, _, rfl, rfl, fun _ _ => rfl⟩

/-! ## `findNodes` -/

/-- C2: for every target class `T` that declares `TYPE`, every root set, every
initial output and every flag, `findNodes` appends to the output exactly the nodes
`n` of `flatten(roots, expand_scopes)` with `n->type == T::TYPE`, once per
occurrence and in the order of the flattened sequence, with the same flag passed to
`flatten`. -/
theorem findNodes_eq_filter_flatten {R N : Type} (typeOf : N → AST_TYPE)
    (flatten : R → List N → Bool → List N) (T : NodeClass) (TYPE : Int)
    (hT : T.decl.TYPE = some TYPE) (roots : R) (output : List N) (expand_scopes : Bool) :
    findNodes typeOf flatten T roots output expand_scopes
      = some (output ++
          (flatten roots [] expand_scopes).filter (fun n => decide ((typeOf n).val = TYPE))) := by
  unfold findNodes
  rw [hT]
  simp only [foldl_push_filter]

/-- Instance of C2: `findNodes<AST_Name>` over three nodes, two of them names. -/
theorem findNodes_eq_filter_flatten_witness :
    NodeClass.AST_Name.decl.TYPE = some 35 ∧
    findNodes AST.type (fun (roots : List AST) out _ => out ++ roots) NodeClass.AST_Name
        [AST.ctor AST_TYPE.Name, AST.ctor AST_TYPE.Num, AST.ctor AST_TYPE.Name] [] true
      = some [AST.ctor AST_TYPE.Name, AST.ctor AST_TYPE.Name] :=
  ⟨rfl, findNodes_eq_filter_flatten AST.type (fun (roots : List AST) out _ => out ++ roots)
    NodeClass.AST_Name 35 rfl
    [AST.ctor AST_TYPE.Name, AST.ctor AST_TYPE.Num, AST.ctor AST_TYPE.Name] [] true⟩

/-! ## The no-op visitor and the default handlers -/

/-- C3: `NoopASTVisitor` declares 42 handlers and each of them returns `false` for
every node; every handler of the generic role (every handler of `ASTVisitor`,
`visit_branch` and `visit_jump` included) is overridden by one of them, so no
dispatch on a `NoopASTVisitor` runs an `ASTVisitor` default. -/
theorem NoopASTVisitor_returns_false (N : Type) :
    (NoopASTVisitor N).length = 42 ∧
    (∀ d ∈ NoopASTVisitor N, ∀ (ndebug : Bool) (node : N),
      ∃ b, d.body = some b ∧ b ndebug node = Outcome.returned (Value.bool false)) ∧
    (∀ h ∈ ASTVisitor N, ∃ d b, overrideOf (NoopASTVisitor N) h = some d ∧ d.body = some b ∧
      ∀ (ndebug : Bool) (node : N), b ndebug node = Outcome.returned (Value.bool false)) ∧
    (∃ d, handlersFor (NoopASTVisitor N) NodeClass.AST_Branch = [d] ∧ d.name = "visit_branch") ∧
    (∃ d, handlersFor (NoopASTVisitor N) NodeClass.AST_Jump = [d] ∧ d.name = "visit_jump") ∧
    (∀ K : NodeClass, reachesDefault (NoopASTVisitor N) K = false) := by
  refine ⟨rfl, ?_, ?_, ⟨_, rfl, rfl⟩, ⟨_, rfl, rfl⟩, ?_⟩
  · simp only [NoopASTVisitor, List.forall_mem_cons, List.not_mem_nil, false_imp_iff,
      implies_true, and_true]
    and_intros <;> intro ndebug node <;> exact ⟨_, rfl, rfl⟩
  · simp only [ASTVisitor, List.forall_mem_cons, List.not_mem_nil, false_imp_iff,
      implies_true, and_true]
    and_intros <;> exact ⟨_, _, rfl, rfl, fun _ _ => rfl⟩
  · intro K
    rw [reachesDefault_eq]
    cases K <;> rfl

/-- C4: every handler declared by `ASTVisitor`, `ExprVisitor` and `StmtVisitor` has a
default body, and for every node that body ends the process (by the failed
`assert(0)`, or by `abort()` when `NDEBUG` is defined): it returns no value of any
kind. The outcome is the same for all handlers; `ASTVisitor` and `StmtVisitor` each
declare one handler for `AST_Branch` and one for `AST_Jump`, which are among them. -/
theorem default_handlers_abort (N : Type) :
    (∀ h ∈ ASTVisitor N ++ ExprVisitor N ++ StmtVisitor N, ∀ (ndebug : Bool) (node : N),
      ∃ b, h.body = some b ∧
        b ndebug node = (if ndebug then Outcome.aborted else Outcome.assertFailed) ∧
        ∀ v : Value, b ndebug node ≠ Outcome.returned v) ∧
    (∃ h, handlersFor (ASTVisitor N) NodeClass.AST_Branch = [h] ∧ h.name = "visit_branch") ∧
    (∃ h, handlersFor (ASTVisitor N) NodeClass.AST_Jump = [h] ∧ h.name = "visit_jump") ∧
    (∃ h, handlersFor (StmtVisitor N) NodeClass.AST_Branch = [h] ∧ h.name = "visit_branch") ∧
    (∃ h, handlersFor (StmtVisitor N) NodeClass.AST_Jump = [h] ∧ h.name = "visit_jump") := by
  refine ⟨?_, ⟨_, rfl, rfl⟩, ⟨_, rfl, rfl⟩, ⟨_, rfl, rfl⟩, ⟨_, rfl, rfl⟩⟩
  simp only [ASTVisitor, ExprVisitor, StmtVisitor, List.cons_append, List.nil_append,
    List.forall_mem_cons, List.not_mem_nil, false_imp_iff, implies_true, and_true]
  and_intros <;> intro ndebug node <;> refine ⟨_, rfl, ?_⟩ <;> cases ndebug <;>
    exact ⟨rfl, fun v hv => Outcome.noConfusion hv⟩

/-! ## Kinds and families -/

/-- C5: the constructor of every concrete node class stores in `type` the enumerator
whose spelling is the class's own (`AST_` followed by the enumerator's name); two
distinct concrete classes never store the same Kind; and two distinct enumerators
of `AST_TYPE` never have the same integer value. -/
theorem kind_unique_per_class :
    (∀ K : NodeClass, K.decl.name = "AST_" ++ K.decl.ctor.type.name) ∧
    (∀ K K' : NodeClass, K.decl.ctor.type = K'.decl.ctor.type → K = K') ∧
    (∀ K K' : NodeClass, K.decl.ctor.type.val = K'.decl.ctor.type.val → K = K') ∧
    (∀ t t' : AST_TYPE, t.val = t'.val → t = t') := by
  refine ⟨?_, kind_injective, ?_, val_injective⟩
  · intro K
    cases K <;> decide
  · intro K K' h
    exact kind_injective K K' (val_injective _ _ h)

/-- C6, as stated, fails: `AST_alias` derives `AST` directly, so it is neither a
statement node nor an expression node. -/
theorem family_exactly_one_fails :
    NodeClass.AST_alias.decl.bases = [Base.AST] ∧
    ¬ (NodeClass.AST_alias.isStmt ∨ NodeClass.AST_alias.isExpr) ∧
    ¬ (∀ K : NodeClass, (K.isStmt ∨ K.isExpr) ∧ ¬ (K.isStmt ∧ K.isExpr)) := by
  refine ⟨rfl, by decide, fun h => ?_⟩
  exact absurd (h NodeClass.AST_alias).1 (by decide)

/-- C6, amended: no concrete node class is in both families; the five classes
`AST_alias`, `AST_arguments`, `AST_comprehension`, `AST_keyword` and `AST_Module`
derive `AST` directly and are in neither family, and they are the only ones; each
of the other 37 classes is in exactly one family. -/
theorem family_at_most_one (K : NodeClass) :
    ¬ (K.isStmt ∧ K.isExpr) ∧
    ((K.isStmt ∨ K.isExpr) ↔
      K ∉ [NodeClass.AST_alias, NodeClass.AST_arguments, NodeClass.AST_comprehension,
        NodeClass.AST_keyword, NodeClass.AST_Module]) ∧
    (K.decl.bases = [Base.AST] ↔
      K ∈ [NodeClass.AST_alias, NodeClass.AST_arguments, NodeClass.AST_comprehension,
        NodeClass.AST_keyword, NodeClass.AST_Module]) ∧
    K.decl.bases.length = 1 := by
  cases K <;> decide

/-- C7, as stated, fails: `ClsAttribute` is listed in the pseudo-node block with tag
202, it is neither `Branch` nor `Jump`, and the class built with it,
`AST_ClsAttribute`, is an expression node, not a statement node. -/
theorem pseudo_block_not_only_stmt :
    AST_TYPE.ClsAttribute ∈ pseudoBlock ∧ 200 ≤ AST_TYPE.ClsAttribute.val ∧
    AST_TYPE.ClsAttribute ≠ AST_TYPE.Branch ∧ AST_TYPE.ClsAttribute ≠ AST_TYPE.Jump ∧
    NodeClass.AST_ClsAttribute.kind = AST_TYPE.ClsAttribute ∧
    NodeClass.AST_ClsAttribute.isExpr ∧ ¬ NodeClass.AST_ClsAttribute.isStmt := by
  decide

/-- C7, amended: the kinds with tag 200 and above are exactly the four of the
pseudo-node block, `Branch`, `Jump`, `ClsAttribute` and `AugBinOp`; the classes built
with them are `AST_Branch`, `AST_Jump`, `AST_ClsAttribute` and `AST_AugBinOp` and no
other; `Branch` and `Jump` are in the statement family, `ClsAttribute` and `AugBinOp`
in the expression family. -/
theorem pseudo_block_four_kinds :
    pseudoBlock.length = 4 ∧
    (∀ t : AST_TYPE, 200 ≤ t.val ↔ t ∈ pseudoBlock) ∧
    (∀ K : NodeClass, K.kind ∈ pseudoBlock ↔
      K ∈ [NodeClass.AST_Branch, NodeClass.AST_Jump, NodeClass.AST_ClsAttribute,
        NodeClass.AST_AugBinOp]) ∧
    (NodeClass.AST_Branch.kind = AST_TYPE.Branch ∧ NodeClass.AST_Branch.isStmt ∧
      ¬ NodeClass.AST_Branch.isExpr) ∧
    (NodeClass.AST_Jump.kind = AST_TYPE.Jump ∧ NodeClass.AST_Jump.isStmt ∧
      ¬ NodeClass.AST_Jump.isExpr) ∧
    (NodeClass.AST_ClsAttribute.kind = AST_TYPE.ClsAttribute ∧
      NodeClass.AST_ClsAttribute.isExpr ∧ ¬ NodeClass.AST_ClsAttribute.isStmt) ∧
    (NodeClass.AST_AugBinOp.kind = AST_TYPE.AugBinOp ∧ NodeClass.AST_AugBinOp.isExpr ∧
      ¬ NodeClass.AST_AugBinOp.isStmt) := by
  refine ⟨rfl, ?_, ?_, by decide, by decide, by decide, by decide⟩
  · intro t
    cases t <;> decide
  · intro K
    cases K <;> decide

/-! ## The expression and statement roles -/

/-- C8: `ExprVisitor` declares 19 handlers, all returning `void*`, no two for the
same class; a concrete node class has exactly one handler in `ExprVisitor` when it
derives `AST_expr` and none otherwise (statement nodes and the classes outside both
families); and the classes deriving `AST_expr` are exactly those that declare
`accept_expr`. -/
theorem ExprVisitor_covers_expr_family (N : Type) :
    (ExprVisitor N).length = 19 ∧
    ((ExprVisitor N).map (·.param)).Nodup ∧
    (∀ h ∈ ExprVisitor N, h.ret = RetType.voidPtr) ∧
    (∀ K : NodeClass,
      (handlersFor (ExprVisitor N) K).length = (if K.isExpr then 1 else 0)) ∧
    (∀ K : NodeClass, K.isExpr ↔ K.decl.accept_expr = true) := by
  refine ⟨rfl, of_decide_eq_true rfl, ?_, ?_, ?_⟩
  · simp only [ExprVisitor, List.forall_mem_cons, List.not_mem_nil, false_imp_iff,
      implies_true, and_true]
  · intro K
    cases K <;> rfl
  · intro K
    cases K <;> decide

/-- C9: `StmtVisitor` declares 18 handlers, all returning `void`, no two for the same
class; a concrete node class has exactly one handler in `StmtVisitor` when it
derives `AST_stmt` and none otherwise (expression nodes and the classes outside both
families); `AST_Branch` and `AST_Jump` derive `AST_stmt` and their handlers are
`visit_branch` and `visit_jump`; and the classes deriving `AST_stmt` are exactly
those that declare `accept_stmt`. -/
theorem StmtVisitor_covers_stmt_family (N : Type) :
    (StmtVisitor N).length = 18 ∧
    ((StmtVisitor N).map (·.param)).Nodup ∧
    (∀ h ∈ StmtVisitor N, h.ret = RetType.void) ∧
    (∀ K : NodeClass,
      (handlersFor (StmtVisitor N) K).length = (if K.isStmt then 1 else 0)) ∧
    (NodeClass.AST_Branch.isStmt ∧
      ∃ h, handlersFor (StmtVisitor N) NodeClass.AST_Branch = [h] ∧ h.name = "visit_branch") ∧
    (NodeClass.AST_Jump.isStmt ∧
      ∃ h, handlersFor (StmtVisitor N) NodeClass.AST_Jump = [h] ∧ h.name = "visit_jump") ∧
    (∀ K : NodeClass, K.isStmt ↔ K.decl.accept_stmt = true) := by
  refine ⟨rfl, of_decide_eq_true rfl, ?_, ?_, ⟨by decide, _, rfl, rfl⟩,
    ⟨by decide, _, rfl, rfl⟩, ?_⟩
  · simp only [StmtVisitor, List.forall_mem_cons, List.not_mem_nil, false_imp_iff,
      implies_true, and_true]
  · intro K
    cases K <;> rfl
  · intro K
    cases K <;> decide

/-! ## The print visitor -/

/-- C10: `PrintVisitor` declares 42 handlers, and every handler that `ASTVisitor`
declares (`visit_branch` and `visit_jump` included) is overridden by a handler of
`PrintVisitor` with the same name, parameter class and return type; so dispatching
the generic role on a node of any concrete class with a `PrintVisitor` runs one
handler, a handler of `PrintVisitor`, and never a default body of `ASTVisitor`
(which a visitor class that declares nothing reaches for every class). -/
theorem PrintVisitor_overrides_every_handler (N : Type) :
    (PrintVisitor N).length = 42 ∧
    (∀ h ∈ ASTVisitor N, ∃ d ∈ PrintVisitor N, overrideOf (PrintVisitor N) h = some d ∧
      d.name = h.name ∧ d.param = h.param ∧ d.ret = h.ret) ∧
    (∀ K : NodeClass, reachesDefault (PrintVisitor N) K = false) ∧
    (∀ K : NodeClass, ∃ d ∈ PrintVisitor N, dispatchGeneric (PrintVisitor N) K = [d] ∧
      d.param = K) ∧
    (∀ K : NodeClass, reachesDefault ([] : List (HandlerDecl N)) K = true) := by
  have key : ∀ h ∈ ASTVisitor N, ∃ d, overrideOf (PrintVisitor N) h = some d ∧ d.ret = h.ret := by
    simp only [ASTVisitor, List.forall_mem_cons, List.not_mem_nil, false_imp_iff,
      implies_true, and_true]
    and_intros <;> exact ⟨_, rfl, rfl⟩
  refine ⟨rfl, ?_, ?_, ?_, ?_⟩
  · intro h hh
    obtain ⟨d, hd, hr⟩ := key h hh
    obtain ⟨hm, hn, hp⟩ := overrideOf_sound hd
    exact ⟨d, hm, hd, hn, hp, hr⟩
  · intro K
    rw [reachesDefault_eq]
    cases K <;> rfl
  · intro K
    obtain ⟨h, hh, hK⟩ := handlersFor_ASTVisitor N K
    obtain ⟨d, hd, _⟩ := key h (mem_of_handlersFor hh)
    obtain ⟨hm, _, hp⟩ := overrideOf_sound hd
    refine ⟨d, hm, ?_, hp.trans hK⟩
    simp [dispatchGeneric, accept_kind, hh, finalOverrider, hd]
  · intro K
    rw [reachesDefault_eq]
    cases K <;> rfl

/-! ## Trees and `flatten`: shared lemmas -/

/-- A class that declares `TYPE` gives it the value of the tag its constructor stores. -/
theorem TYPE_eq_ctor_val (T : NodeClass) (TYPE : Int) (hT : T.decl.TYPE = some TYPE) :
    TYPE = T.decl.ctor.type.val := by
  cases T <;> first | exact (Option.some.inj hT).symm | cases hT

mutual
theorem flattenNode_true : ∀ (n : Node) (out : List Node),
    flattenNode true n out = out ++ preorder n
  | .mk cls lineno col_offset children, out => by
    simp [flattenNode, preorder, flattenNodes_true children]
theorem flattenNodes_true : ∀ (ns : List Node) (out : List Node),
    flattenNodes true ns out = out ++ preorderList ns
  | [], out => by simp [flattenNodes, preorderList]
  | n :: ns, out => by
    simp [flattenNodes, preorderList, flattenNode_true n, flattenNodes_true ns]
end

theorem flatten_true (roots out : List Node) :
    flatten roots out true = out ++ preorderList roots :=
  flattenNodes_true roots out

mutual
theorem length_preorder : ∀ n : Node, (preorder n).length = n.size
  | .mk cls lineno col_offset children => by
    simp [preorder, Node.size, length_preorderList children, Nat.add_comm]
theorem length_preorderList : ∀ ns : List Node, (preorderList ns).length = Node.sizeList ns
  | [] => by simp [preorderList, Node.sizeList]
  | n :: ns => by
    simp [preorderList, Node.sizeList, length_preorder n, length_preorderList ns]
end

theorem preorder_eq (n : Node) : preorder n = n :: preorderList n.children := by
  cases n; simp [preorder, Node.children]

theorem preorderList_append (l r : List Node) :
    preorderList (l ++ r) = preorderList l ++ preorderList r := by
  induction l with
  | nil => simp [preorderList]
  | cons a l ih => simp [preorderList, ih]

mutual
theorem under_of_mem_preorder : ∀ (n x : Node), x ∈ preorder n → x.Under n
  | .mk cls lineno col_offset children, x, h => by
    simp only [preorder, List.mem_cons] at h
    rcases h with rfl | h
    · exact Node.Under.self _
    · obtain ⟨c, hc, hu⟩ := under_of_mem_preorderList children x h
      exact Node.Under.child hc hu
theorem under_of_mem_preorderList : ∀ (ns : List Node) (x : Node),
    x ∈ preorderList ns → ∃ n ∈ ns, x.Under n
  | [], x, h => by simp [preorderList] at h
  | n :: ns, x, h => by
    simp only [preorderList, List.mem_append] at h
    rcases h with h | h
    · exact ⟨n, List.mem_cons_self _ _, under_of_mem_preorder n x h⟩
    · obtain ⟨m, hm, hu⟩ := under_of_mem_preorderList ns x h
      exact ⟨m, List.mem_cons_of_mem _ hm, hu⟩
end

/-- The subtree of every node under `n` is a block of the pre-order sequence of `n`. -/
theorem preorder_block {x n : Node} (h : x.Under n) :
    ∃ pre post, preorder n = pre ++ preorder x ++ post := by
  induction h with
  | self => exact ⟨[], [], by simp⟩
  | @child c n hc _ ih =>
    obtain ⟨pre, post, hp⟩ := ih
    obtain ⟨l, r, hlr⟩ := List.append_of_mem hc
    refine ⟨n :: preorderList l ++ pre, post ++ preorderList r, ?_⟩
    rw [preorder_eq n, hlr, preorderList_append]
    simp [preorderList, hp]

theorem mem_preorder_of_under {x n : Node} (h : x.Under n) : x ∈ preorder n := by
  obtain ⟨pre, post, hp⟩ := preorder_block h
  rw [hp, preorder_eq x]
  simp

theorem mem_preorderList_iff (ns : List Node) (x : Node) :
    x ∈ preorderList ns ↔ ∃ n ∈ ns, x.Under n := by
  constructor
  · exact under_of_mem_preorderList ns x
  · rintro ⟨n, hn, hu⟩
    obtain ⟨l, r, hlr⟩ := List.append_of_mem hn
    rw [hlr, preorderList_append]
    simp [preorderList, mem_preorder_of_under hu]

theorem size_pos (n : Node) : 0 < n.size := by
  cases n; simp [Node.size]

theorem sizeList_le_of_mem {c : Node} {ns : List Node} (h : c ∈ ns) :
    c.size ≤ Node.sizeList ns := by
  induction ns with
  | nil => cases h
  | cons a ns ih =>
    rcases List.mem_cons.mp h with rfl | h'
    · simp [Node.sizeList]
    · have := ih h'
      simp only [Node.sizeList]
      omega

theorem size_lt_of_child {c n : Node} (h : c ∈ n.children) : c.size < n.size := by
  cases n with
  | mk cls lineno col_offset children =>
    have := sizeList_le_of_mem (show c ∈ children from h)
    simp only [Node.size]
    omega

theorem size_le_of_under {x n : Node} (h : x.Under n) : x.size ≤ n.size := by
  induction h with
  | self => exact Nat.le_refl _
  | child hc _ ih => exact Nat.le_trans ih (Nat.le_of_lt (size_lt_of_child hc))

/-- With `expand_scopes = false`, `flatten` at a scope-introducing node pushes the
node and nothing else. -/
theorem flatten_false_scope (f : Node) (hf : isScope f.type = true) (out : List Node) :
    flatten [f] out false = out ++ [f] := by
  cases f with
  | mk cls lineno col_offset children =>
    have hs : isScope cls.decl.ctor.type = true := hf
    simp [flatten, flattenNodes, flattenNode, hs]

/-- What `findNodes` computes for a class that declares `TYPE`. -/
theorem findNodes_of_TYPE {R N : Type} (typeOf : N → AST_TYPE)
    (flatten : R → List N → Bool → List N) (T : NodeClass) (TYPE : Int)
    (hT : T.decl.TYPE = some TYPE) (roots : R) (output : List N) (expand_scopes : Bool) :
    findNodes typeOf flatten T roots output expand_scopes
      = some (output ++
          (flatten roots [] expand_scopes).filter (fun n => decide ((typeOf n).val = TYPE))) := by
  unfold findNodes
  rw [hT]
  simp only [foldl_push_filter]

/-! ## Kind-filtered search over a tree -/

/-- C11, as stated, fails: `AST_Global` declares no `TYPE`, so `findNodes` has no
instance with `T = AST_Global`, whatever the tree; here on a module body with
`global` directives at three depths, which `flatten` does list. -/
theorem findNodes_Global_no_instance :
    NodeClass.AST_Global.decl.TYPE = none ∧
    findNodes Node.type flatten NodeClass.AST_Global globalsExample [] true = none ∧
    ((flatten globalsExample [] true).filter
        (fun n => decide (n.type = AST_TYPE.Global))).length = 3 :=
  ⟨rfl, rfl, by decide⟩

/-- C11, amended: for every class `T` that declares `TYPE` and every sequence of
trees, `findNodes<T>` with `expand_scopes = true`, started on an empty output,
returns the entries of the flattened sequence whose Kind is the Kind of `T`, in
that order, and these are all and only the nodes of the trees with that Kind; and
the entries of the flattened sequence whose Kind is `Global` are all and only the
`global` directives of the trees, at any depth. -/
theorem findNodes_all_and_only (T : NodeClass) (TYPE : Int) (hT : T.decl.TYPE = some TYPE)
    (roots : List Node) :
    findNodes Node.type flatten T roots [] true
      = some ((flatten roots [] true).filter (fun n => decide (n.type = T.decl.ctor.type))) ∧
    (∀ x : Node, x ∈ (flatten roots [] true).filter (fun n => decide (n.type = T.decl.ctor.type))
      ↔ (∃ root ∈ roots, x.Under root) ∧ x.type = T.decl.ctor.type) ∧
    (∀ x : Node, x ∈ (flatten roots [] true).filter (fun n => decide (n.type = AST_TYPE.Global))
      ↔ (∃ root ∈ roots, x.Under root) ∧ x.type = AST_TYPE.Global) := by
  have hv := TYPE_eq_ctor_val T TYPE hT
  refine ⟨?_, ?_, ?_⟩
  · rw [findNodes_of_TYPE Node.type flatten T TYPE hT, List.nil_append]
    congr 1
    apply List.filter_congr
    intro n _
    rw [hv]
    by_cases h : n.type = T.decl.ctor.type
    · simp [h]
    · have h' : ¬ n.type.val = T.decl.ctor.type.val := fun e => h (val_injective _ _ e)
      simp [h, h']
  · intro x
    simp [flatten_true, mem_preorderList_iff]
  · intro x
    simp [flatten_true, mem_preorderList_iff]

/-- Instance of the amended C11: `findNodes<AST_FunctionDef>` on the example body. -/
theorem findNodes_all_and_only_witness :
    NodeClass.AST_FunctionDef.decl.TYPE = some 21 ∧
    findNodes Node.type flatten NodeClass.AST_FunctionDef globalsExample [] true
      = some ((flatten globalsExample [] true).filter
          (fun n => decide (n.type = NodeClass.AST_FunctionDef.decl.ctor.type))) :=
  ⟨rfl, (findNodes_all_and_only NodeClass.AST_FunctionDef 21 rfl globalsExample).1⟩

/-! ## `flatten` -/

/-- C12: for every tree, `flatten({root}, expand_scopes = true)` started on an empty
output is the pre-order sequence of the tree: it has as many entries as the tree
has nodes, its first entry is `root`, its entries are exactly the nodes of the tree,
every node comes before each of its descendants, and every node is followed by the
flattened subtrees of its children, left to right. -/
theorem flatten_expand_is_preorder (root : Node) :
    flatten [root] [] true = preorder root ∧
    (flatten [root] [] true).length = root.size ∧
    (flatten [root] [] true).head? = some root ∧
    (∀ x : Node, x ∈ flatten [root] [] true ↔ x.Under root) ∧
    (∀ x c y : Node, x.Under root → c ∈ x.children → y.Under c →
      ∃ pre mid post, flatten [root] [] true = pre ++ x :: mid ++ y :: post) ∧
    (∀ (x c : Node) (l r : List Node), x.Under root → x.children = l ++ c :: r →
      ∃ pre post, flatten [root] [] true
        = pre ++ x :: flatten l [] true ++ flatten [c] [] true ++ flatten r [] true ++ post) := by
  have h0 : flatten [root] [] true = preorder root := by
    simp [flatten_true, preorderList]
  refine ⟨h0, ?_, ?_, ?_, ?_, ?_⟩
  · rw [h0, length_preorder]
  · rw [h0, preorder_eq]; rfl
  · intro x
    rw [h0]
    exact ⟨under_of_mem_preorder root x, mem_preorder_of_under⟩
  · intro x c y hx hc hy
    obtain ⟨pre, post, hp⟩ := preorder_block hx
    have hmem : y ∈ preorderList x.children :=
      (mem_preorderList_iff _ _).mpr ⟨c, hc, hy⟩
    obtain ⟨mid, rest, hsplit⟩ := List.append_of_mem hmem
    refine ⟨pre, mid, rest ++ post, ?_⟩
    rw [h0, hp, preorder_eq x, hsplit]
    simp
  · intro x c l r hx hch
    obtain ⟨pre, post, hp⟩ := preorder_block hx
    refine ⟨pre, post, ?_⟩
    rw [h0, hp, preorder_eq x, hch]
    simp [flatten_true, preorderList_append, preorderList]

/-- C13: for every function-definition node `f` with a non-empty nested body,
`flatten({f}, expand_scopes = false)` contains `f` (it is `[f]`) and contains no
statement of the body of `f` nor any of their descendants, whereas with
`expand_scopes = true` it contains `f`, every statement of the body and all their
descendants; so some node is in the second sequence and not in the first. -/
theorem flatten_stops_at_FunctionDef (f : Node) (hf : f.cls = NodeClass.AST_FunctionDef)
    (hb : f.children ≠ []) :
    flatten [f] [] false = [f] ∧
    f ∈ flatten [f] [] false ∧
    (∀ s ∈ f.children, ∀ d : Node, d.Under s → d ∉ flatten [f] [] false) ∧
    f ∈ flatten [f] [] true ∧
    (∀ s ∈ f.children, ∀ d : Node, d.Under s → d ∈ flatten [f] [] true) ∧
    (∃ s ∈ f.children, s ∈ flatten [f] [] true ∧ s ∉ flatten [f] [] false) := by
  have hs : isScope f.type = true := by
    unfold Node.type
    rw [hf]
    rfl
  have h1 : flatten [f] [] false = [f] := by
    rw [flatten_false_scope f hs]
    rfl
  have h2 : ∀ s ∈ f.children, ∀ d : Node, d.Under s → d ∉ flatten [f] [] false := by
    intro s hsm d hd hmem
    rw [h1, List.mem_singleton] at hmem
    have hlt := size_lt_of_child hsm
    have hle := size_le_of_under hd
    rw [hmem] at hle
    omega
  have h3 : ∀ s ∈ f.children, ∀ d : Node, d.Under s → d ∈ flatten [f] [] true := by
    intro s hsm d hd
    rw [flatten_true, List.nil_append]
    exact (mem_preorderList_iff _ _).mpr
      ⟨f, List.mem_singleton.mpr rfl, Node.Under.child hsm hd⟩
  refine ⟨h1, by rw [h1]; exact List.mem_singleton.mpr rfl, h2, ?_, h3, ?_⟩
  · rw [flatten_true, List.nil_append]
    exact (mem_preorderList_iff _ _).mpr ⟨f, List.mem_singleton.mpr rfl, Node.Under.self f⟩
  · obtain ⟨s, hsm⟩ := List.exists_mem_of_ne_nil _ hb
    exact ⟨s, hsm, h3 s hsm s (Node.Under.self s), h2 s hsm s (Node.Under.self s)⟩

/-- Instance of C13: `def f(): global b; pass`. -/
theorem flatten_stops_at_FunctionDef_witness :
    functionExample.cls = NodeClass.AST_FunctionDef ∧ functionExample.children ≠ [] ∧
    flatten [functionExample] [] false = [functionExample] ∧
    (∃ s ∈ functionExample.children,
      s ∈ flatten [functionExample] [] true ∧ s ∉ flatten [functionExample] [] false) :=
  ⟨rfl, List.cons_ne_nil _ _,
    (flatten_stops_at_FunctionDef functionExample rfl (List.cons_ne_nil _ _)).1,
    (flatten_stops_at_FunctionDef functionExample rfl (List.cons_ne_nil _ _)).2.2.2.2.2⟩

/-! ## `findNodes`: the cast and the output vector -/

/-- C14: a class `T` that declares `TYPE` is one of the eleven classes `AST_Call`,
`AST_comprehension`, `AST_For`, `AST_FunctionDef`, `AST_IfExp`, `AST_Index`,
`AST_keyword`, `AST_List`, `AST_ListComp`, `AST_Module`, `AST_Name` (each of which
declares it); `T::TYPE` is the tag that the constructor of `T` stores in `type`;
no other concrete class is constructed with that tag; and every node that
`findNodes<T>` adds to its output was constructed as a `T`. -/
theorem TYPE_is_own_tag (T : NodeClass) (TYPE : Int) (hT : T.decl.TYPE = some TYPE) :
    T ∈ [NodeClass.AST_Call, NodeClass.AST_comprehension, NodeClass.AST_For,
      NodeClass.AST_FunctionDef, NodeClass.AST_IfExp, NodeClass.AST_Index,
      NodeClass.AST_keyword, NodeClass.AST_List, NodeClass.AST_ListComp,
      NodeClass.AST_Module, NodeClass.AST_Name] ∧
    (∀ K ∈ [NodeClass.AST_Call, NodeClass.AST_comprehension, NodeClass.AST_For,
      NodeClass.AST_FunctionDef, NodeClass.AST_IfExp, NodeClass.AST_Index,
      NodeClass.AST_keyword, NodeClass.AST_List, NodeClass.AST_ListComp,
      NodeClass.AST_Module, NodeClass.AST_Name], K.decl.TYPE = some K.decl.ctor.type.val) ∧
    TYPE = T.decl.ctor.type.val ∧
    (∀ K : NodeClass, K.decl.ctor.type.val = TYPE → K = T) ∧
    (∀ (R N : Type) (classOf : N → NodeClass) (flatten : R → List N → Bool → List N)
        (roots : R) (output : List N) (expand_scopes : Bool),
      ∃ selected, findNodes (fun n => (classOf n).decl.ctor.type) flatten T roots output
          expand_scopes = some (output ++ selected) ∧
        ∀ n ∈ selected, classOf n = T) := by
  have hv := TYPE_eq_ctor_val T TYPE hT
  have hinj : ∀ K : NodeClass, K.decl.ctor.type.val = TYPE → K = T := by
    intro K hK
    exact kind_injective K T (val_injective _ _ (hK.trans hv))
  refine ⟨?_, by decide, hv, hinj, ?_⟩
  · cases T <;> first | decide | cases hT
  · intro R N classOf flatten roots output expand_scopes
    refine ⟨_, findNodes_of_TYPE _ flatten T TYPE hT roots output expand_scopes, ?_⟩
    intro n hn
    have hp := (List.mem_filter.mp hn).2
    exact hinj _ (of_decide_eq_true hp)

/-- Instance of C14: `AST_For`, whose `TYPE` is the `int` 20. -/
theorem TYPE_is_own_tag_witness :
    NodeClass.AST_For.decl.TYPE = some 20 ∧
    (20 : Int) = NodeClass.AST_For.decl.ctor.type.val ∧
    (∀ K : NodeClass, K.decl.ctor.type.val = 20 → K = NodeClass.AST_For) :=
  ⟨rfl, (TYPE_is_own_tag NodeClass.AST_For 20 rfl).2.2.1,
    (TYPE_is_own_tag NodeClass.AST_For 20 rfl).2.2.2.1⟩

/-- C15: `findNodes` only appends to its output: for every initial content `p` the
content after the call is `p` followed by the matching nodes, so `p` stays as a
prefix and the length does not decrease; and a second call with the same
arguments on the resulting output appends the matching nodes a second time. -/
theorem findNodes_only_appends {R N : Type} (typeOf : N → AST_TYPE)
    (flatten : R → List N → Bool → List N) (T : NodeClass) (TYPE : Int)
    (hT : T.decl.TYPE = some TYPE) (roots : R) (p : List N) (expand_scopes : Bool) :
    ∃ out matching,
      matching = (flatten roots [] expand_scopes).filter
        (fun n => decide ((typeOf n).val = TYPE)) ∧
      findNodes typeOf flatten T roots p expand_scopes = some out ∧
      out = p ++ matching ∧ p <+: out ∧ p.length ≤ out.length ∧
      out.length = p.length + matching.length ∧
      findNodes typeOf flatten T roots out expand_scopes = some (p ++ matching ++ matching) ∧
      (findNodes typeOf flatten T roots p expand_scopes).bind
          (fun o => findNodes typeOf flatten T roots o expand_scopes)
        = some (p ++ matching ++ matching) := by
  have h1 := findNodes_of_TYPE typeOf flatten T TYPE hT roots p expand_scopes
  have h2 := findNodes_of_TYPE typeOf flatten T TYPE hT roots
    (p ++ (flatten roots [] expand_scopes).filter (fun n => decide ((typeOf n).val = TYPE)))
    expand_scopes
  refine ⟨_, _, rfl, h1, rfl, ⟨_, rfl⟩, ?_, ?_, h2, ?_⟩
  · simp
  · simp
  · rw [h1]
    exact h2

/-- Instance of C15: `findNodes<AST_Name>` on an output that already holds a node. -/
theorem findNodes_only_appends_witness :
    NodeClass.AST_Name.decl.TYPE = some 35 ∧
    ∃ out matching,
      matching = ((fun (roots : List AST) (o : List AST) (_ : Bool) => o ++ roots)
        [AST.ctor AST_TYPE.Name, AST.ctor AST_TYPE.Num] [] false).filter
          (fun n => decide ((AST.type n).val = 35)) ∧
      findNodes AST.type (fun (roots : List AST) o _ => o ++ roots) NodeClass.AST_Name
        [AST.ctor AST_TYPE.Name, AST.ctor AST_TYPE.Num] [AST.ctor AST_TYPE.Pass] false
        = some out ∧
      out = [AST.ctor AST_TYPE.Pass] ++ matching :=
  ⟨rfl,
    let ⟨out, matching, hm, hf, ho, _⟩ :=
      findNodes_only_appends AST.type (fun (roots : List AST) o _ => o ++ roots)
        NodeClass.AST_Name 35 rfl [AST.ctor AST_TYPE.Name, AST.ctor AST_TYPE.Num]
        [AST.ctor AST_TYPE.Pass] false
    ⟨out, matching, hm, hf, ho⟩⟩

end Pyston
